import Mathlib

/-!
Verification of the plan/orchestration core of the threads multi-agent
workflow.  The Python sources are shallowly embedded: pydantic models become
structures, the pure plan operations become Lean functions, agent `invoke`
methods become functions parametrised over their external collaborators
(LLM client, web-search client, JSON decoder), and Python exceptions become
`Except` results.
-/

namespace ThreadsMA

/-- Embeds `Message` from `models/messages.py` (and the plain
`{role, content}` dicts used for `AgentState.messages`). -/
structure Message where
  role : String
  content : String
deriving DecidableEq, Repr

/-- Embeds the `{title, url, snippet, source}` web-search-result record built
by `WebSearchAgent._tool_search` (and the `SearchResult` dataclass of
`search/base.py`, with `source` collapsed to a string). -/
structure SearchHit where
  title : String
  url : String
  snippet : String
  source : String
deriving DecidableEq, Repr

/-- Embeds the `{action, result}` records accumulated in
`state["threads_results"]`. -/
structure ActionResult where
  action : String
  result : String
deriving DecidableEq, Repr

/-- Embeds `PlanStep` from `models/agents.py`.  The source restricts `agent`
to the literals `"threads"` and `"web_search"`; here it is a plain string,
and every constructor site in the embedded code only produces those two
values. -/
structure PlanStep where
  agent : String
  action : String
  completed : Bool := false
  result : Option String := none
deriving DecidableEq, Repr

/-- Embeds `Plan` from `models/agents.py`. -/
structure Plan where
  goal : String
  steps : List PlanStep
  current_step_index : Nat := 0
deriving DecidableEq, Repr

/-- Embeds `Plan.get_current_step`. -/
def Plan.getCurrentStep (p : Plan) : Option PlanStep :=
  if h : p.current_step_index < p.steps.length then
    some (p.steps.get ⟨p.current_step_index, h⟩)
  else
    none

/-- Embeds `Plan.get_next_incomplete_step`: first step in sequence order with
`completed == False`. -/
def Plan.getNextIncompleteStep (p : Plan) : Option PlanStep :=
  p.steps.find? (fun step => !step.completed)

/-- Embeds `Plan.mark_current_step_completed`: when the cursor is in range,
set `completed`/`result` on the step at the cursor and advance the cursor;
otherwise do nothing. -/
def Plan.markCurrentStepCompleted (p : Plan) (result : Option String := none) : Plan :=
  if h : p.current_step_index < p.steps.length then
    { p with
      steps := p.steps.set p.current_step_index
        { (p.steps.get ⟨p.current_step_index, h⟩) with
          completed := true, result := result }
      current_step_index := p.current_step_index + 1 }
  else
    p

/-- Embeds `Plan.is_complete`: all steps completed. -/
def Plan.isComplete (p : Plan) : Bool :=
  p.steps.all (fun step => step.completed)

/-- Embeds `AgentState` from `graph/state.py`.  All keys of the `TypedDict`
are modelled as present (as `create_initial_state` establishes); optional
values are `Option`s. -/
structure AgentState where
  messages : List Message
  plan : Option Plan
  web_search_results : List SearchHit
  threads_results : List ActionResult
  current_action : String
  next_agent : Option String
  error : Option String
  output : Option String
deriving DecidableEq, Repr

/-- Embeds `create_initial_state` from `graph/state.py`. -/
def createInitialState (messages : List Message) : AgentState :=
  { messages := messages
    plan := none
    web_search_results := []
    threads_results := []
    current_action := ""
    next_agent := none
    error := none
    output := none }

/-! ### Python string-helper embeddings -/

/-- `charsStarts needle hay`: `needle` starts `hay`. -/
def charsStarts : List Char → List Char → Bool
  | [], _ => true
  | _ :: _, [] => false
  | a :: as, b :: bs => a == b && charsStarts as bs

/-- `charsContains needle hay`: `needle` occurs contiguously in `hay`. -/
def charsContains (needle : List Char) : List Char → Bool
  | [] => needle.isEmpty
  | c :: t => charsStarts needle (c :: t) || charsContains needle t

/-- Embeds the Python substring test `sub in s` (`str.__contains__`). -/
def strContains (s sub : String) : Bool :=
  charsContains sub.toList s.toList

/-- Embeds Python `str.lower()` (code-point-wise, which is what the ASCII
keywords and actions exercised here require). -/
def pyLower (s : String) : String :=
  String.mk (s.toList.map Char.toLower)

/-- Embeds Python `str.strip(chars)`: remove all leading and trailing
characters belonging to `cs`. -/
def pyStripChars (cs : List Char) (s : String) : String :=
  String.mk (((s.toList.dropWhile (cs.contains ·)).reverse.dropWhile
    (cs.contains ·)).reverse)

/-- Embeds Python `str.strip()` (no argument): strip surrounding whitespace
(the four ASCII whitespace characters suffice for the texts involved). -/
def pyStrip (s : String) : String :=
  String.mk (((s.toList.dropWhile Char.isWhitespace).reverse.dropWhile
    Char.isWhitespace).reverse)

/-- Embeds Python `s.startswith(pre)`. -/
def pyStarts (s pre : String) : Bool :=
  charsStarts pre.toList s.toList

/-- Embeds Python `s.endswith(suffix)`. -/
def pyEnds (s suffix : String) : Bool :=
  charsStarts suffix.toList.reverse s.toList.reverse

/-- Embeds Python code-point slicing `s[n:]`. -/
def pyDrop (s : String) (n : Nat) : String :=
  String.mk (s.toList.drop n)

/-- Embeds Python code-point slicing `s[:-n]` (for `n ≥ 1`): all but the
last `n` code points. -/
def pyDropRight (s : String) (n : Nat) : String :=
  String.mk (s.toList.take (s.toList.length - n))

/-- Embeds Python truthiness of an optional string (`if not user_message`):
falsy iff absent or empty. -/
def pyTruthy : Option String → Bool
  | none => false
  | some s => !(s == "")

/-! ### Planning agent (`agents/planning.py`) -/

/-- JSON values, the shape of what Python's `json.loads` returns on success.
Numbers are collapsed to integers (no claim depends on fractional values). -/
inductive Json where
  | null : Json
  | bool (b : Bool) : Json
  | num (n : Int) : Json
  | str (s : String) : Json
  | arr (xs : List Json) : Json
  | obj (kvs : List (String × Json)) : Json

/-- The Python exceptions that the embedded code can raise or catch. -/
inductive PyExc where
  | typeError : PyExc
  | attributeError : PyExc
  | validationError : PyExc
  | planningError : PyExc
  | orchestrationError : PyExc
  | agentError : PyExc
deriving DecidableEq, Repr

/-- Embeds Python `data.get(key, default)`: only dict (`obj`) values support
`.get`; on any other value an `AttributeError` is raised.  A duplicate key in
a decoded JSON object keeps the last binding, as `json.loads` does. -/
def pyDictGet (j : Json) (key : String) (dflt : Json) : Except PyExc Json :=
  match j with
  | Json.obj kvs =>
      match (kvs.reverse.find? (fun kv => kv.1 == key)) with
      | some kv => Except.ok kv.2
      | none => Except.ok dflt
  | _ => Except.error PyExc.attributeError

/-- Embeds Python iteration `for x in j`: arrays yield their elements,
strings yield their characters (as one-character strings), dicts yield their
keys; every other value raises a `TypeError`. -/
def pyIter (j : Json) : Except PyExc (List Json) :=
  match j with
  | Json.arr xs => Except.ok xs
  | Json.str s => Except.ok (s.toList.map (fun c => Json.str (String.mk [c])))
  | Json.obj kvs => Except.ok (kvs.map (fun kv => Json.str kv.1))
  | _ => Except.error PyExc.typeError

/-- The research-intent keywords of `PlanningAgent._create_fallback_plan`. -/
def searchKeywords : List String :=
  ["news", "trending", "latest", "search", "find", "research", "information"]

/-- The publish-intent keywords of `PlanningAgent._create_fallback_plan`. -/
def postKeywords : List String :=
  ["post", "share", "publish", "thread", "create"]

/-- Embeds `PlanningAgent._create_fallback_plan`: deterministic keyword-based
plan built from the user message alone (the `_response` parameter is unused
by the source as well). -/
def createFallbackPlan (user_message : String) : Plan :=
  let lower := pyLower user_message
  let steps0 : List PlanStep :=
    if searchKeywords.any (fun kw => strContains lower kw) then
      [{ agent := "web_search", action := "Search for relevant information"
         completed := false, result := none }]
    else []
  let steps1 : List PlanStep :=
    steps0 ++
      (if postKeywords.any (fun kw => strContains lower kw) then
        [{ agent := "threads", action := "Create and publish post on Threads"
           completed := false, result := none }]
      else [])
  let steps2 : List PlanStep :=
    if steps1 = [] then
      [{ agent := "threads", action := "Process user request on Threads"
         completed := false, result := none }]
    else steps1
  { goal := user_message, steps := steps2, current_step_index := 0 }

/-- Embeds the single-step body of the `for step_data in data.get("steps", [])`
loop of `PlanningAgent._tool_parse_plan`: read and coerce the agent name,
read the action, and build the `PlanStep` (pydantic requires `action` to be a
string; anything else is a `ValidationError`). -/
def buildStepFromData (step_data : Json) : Except PyExc PlanStep := do
  let agentJ ← pyDictGet step_data "agent" (Json.str "threads")
  let agent : String :=
    match agentJ with
    | Json.str s => if s = "web_search" ∨ s = "threads" then s else "threads"
    | _ => "threads"
  let actionJ ← pyDictGet step_data "action" (Json.str "")
  match actionJ with
  | Json.str action =>
      Except.ok { agent := agent, action := action, completed := false, result := none }
  | _ => Except.error PyExc.validationError

/-- Embeds the plan-construction part of `PlanningAgent._tool_parse_plan`
executed after a successful `json.loads`: iterate `data.get("steps", [])`
building steps, then build the `Plan` with `goal = data.get("goal",
user_message)`. -/
def buildPlanFromData (data : Json) (user_message : String) : Except PyExc Plan := do
  let stepsVal ← pyDictGet data "steps" (Json.arr [])
  let stepItems ← pyIter stepsVal
  let steps ← stepItems.mapM buildStepFromData
  let goalJ ← pyDictGet data "goal" (Json.str user_message)
  match goalJ with
  | Json.str goal =>
      Except.ok { goal := goal, steps := steps, current_step_index := 0 }
  | _ => Except.error PyExc.validationError

/-- Embeds the brace-location logic of `PlanningAgent._tool_parse_plan`:
`json_start = response.find("{")`, `json_end = response.rfind("}") + 1`;
returns the slice `response[json_start:json_end]` when
`json_start >= 0 and json_end > json_start`, else nothing. -/
def jsonSpanStr (response : String) : Option String :=
  let cs := response.toList
  match cs.findIdx? (fun c => c = Char.ofNat 123) with
  | none => none
  | some json_start =>
      match (cs.length - 1 - ·) <$> cs.reverse.findIdx? (fun c => c = Char.ofNat 125) with
      | none => none
      | some lastClose =>
          let json_end := lastClose + 1
          if json_start < json_end then
            some (String.mk ((cs.take json_end).drop json_start))
          else none

/-- Embeds `PlanningAgent._tool_parse_plan`.  `jsonLoads` abstracts Python's
`json.loads`, returning `none` exactly when the stdlib parser would raise a
`JSONDecodeError` (which the source catches, falling back); plan construction
from decoded data can still raise, and those exceptions escape this
function as they escape the source's `try` block. -/
def toolParsePlan (jsonLoads : String → Option Json) (response user_message : String) :
    Except PyExc Plan :=
  match jsonSpanStr response with
  | some json_str =>
      match jsonLoads json_str with
      | some data => buildPlanFromData data user_message
      | none => Except.ok (createFallbackPlan user_message)
  | none => Except.ok (createFallbackPlan user_message)

/-- Embeds the reversed-scan user-message lookup at the top of
`PlanningAgent.invoke`: content of the most recent `"user"`-role message. -/
def latestUserContent (messages : List Message) : Option String :=
  (messages.reverse.find? (fun msg => msg.role == "user")).map (fun msg => msg.content)

/-- Embeds `PlanningAgent.invoke`.  `jsonLoads` abstracts `json.loads`;
`llm` abstracts the (successful) LLM completion of `_tool_generate_plan`,
mapping the user message to the raw response text.  The source's trailing
`except Exception` wraps any failure after the user-message check into a
`PlanningError`. -/
def planningInvoke (jsonLoads : String → Option Json) (llm : String → String)
    (state : AgentState) : Except PyExc AgentState :=
  let user_message := latestUserContent state.messages
  if pyTruthy user_message = false then
    Except.error PyExc.planningError
  else
    match user_message with
    | none => Except.error PyExc.planningError
    | some m =>
        match toolParsePlan jsonLoads (llm m) m with
        | Except.ok plan =>
            Except.ok { state with
              plan := some plan
              messages := state.messages ++
                [{ role := "assistant", content := "Plan created: " ++ plan.goal }] }
        | Except.error _ => Except.error PyExc.planningError

/-! ### Orchestrator agent (`agents/orchestrator.py`) -/

/-- One entry of the orchestrator decision's `modifications` list, at the
granularity the claims use: each field is a string when present.  Python's
`mod.get("agent")` / `mod.get("action", "")` become `Option` reads. -/
structure ModDict where
  agent : Option String := none
  action : Option String := none
deriving DecidableEq, Repr

/-- The orchestrator decision dict returned by
`OrchestratorAgent._tool_parse_decision`, at string-or-absent granularity. -/
structure DecisionDict where
  evaluation : Option String := none
  decision : Option String := none
  reasoning : Option String := none
  modifications : Option (List ModDict) := none
deriving DecidableEq, Repr

/-- The `communication_keywords` literal of
`OrchestratorAgent._tool_process_decision`. -/
def communicationKeywords : List String :=
  ["inform the user", "tell the user", "explain to", "notify the user"]

/-- Embeds the user-communication test of the modification loop: the
lower-cased `action` contains one of the `communication_keywords`. -/
def isCommunicationAction (action : String) : Bool :=
  communicationKeywords.any (fun kw => strContains (pyLower action) kw)

/-- Embeds the body of the modification-filtering loop of
`OrchestratorAgent._tool_process_decision`: drop user-communication actions,
keep only modifications with a recognised agent and a truthy action, and
build the corresponding new `PlanStep`s. -/
def survivingSteps (modifications : List ModDict) : List PlanStep :=
  modifications.filterMap (fun mod =>
    if isCommunicationAction (mod.action.getD "") then
      none
    else
      match mod.agent with
      | some a =>
          if (a = "web_search" ∨ a = "threads") ∧ pyTruthy mod.action then
            some { agent := a, action := mod.action.getD ""
                   completed := false, result := none }
          else none
      | none => none)

/-- Loop embedding of the `insert_idx` computation of
`_tool_process_decision`: fold over the steps with their indices, remembering
`i + 1` for every completed step at index `i`. -/
def computeInsertIdxAux : List PlanStep → Nat → Nat → Nat
  | [], _, acc => acc
  | s :: rest, i, acc =>
      computeInsertIdxAux rest (i + 1) (if s.completed then i + 1 else acc)

/-- `insert_idx` of `_tool_process_decision`: one past the index of the last
completed step, `0` when no step is completed. -/
def computeInsertIdx (steps : List PlanStep) : Nat :=
  computeInsertIdxAux steps 0 0

/-- Embeds Python `list.insert(i, a)` (which clamps an out-of-range index to
an append). -/
def pyInsert {α : Type} (l : List α) (i : Nat) (a : α) : List α :=
  l.take i ++ a :: l.drop i

/-- Embeds the insertion loop `for i, new_step in enumerate(new_steps):
plan.steps.insert(insert_idx + i, new_step)`, with the running index folded
into `idx`. -/
def insertSteps {α : Type} (l : List α) (idx : Nat) : List α → List α
  | [] => l
  | s :: rest => insertSteps (pyInsert l idx s) (idx + 1) rest

/-- Embeds the routing epilogue of `_tool_process_decision` (the code after
the decision branches): look up the next incomplete step; route to its agent
and record its action, or route to `"response"`; store the plan back. -/
def finishRoute (state : AgentState) (plan : Plan) : AgentState :=
  match plan.getNextIncompleteStep with
  | some step =>
      { state with next_agent := some step.agent
                   current_action := step.action
                   plan := some plan }
  | none =>
      { state with next_agent := some "response", plan := some plan }

/-- Embeds `OrchestratorAgent._tool_process_decision`. -/
def processDecision (state : AgentState) (plan : Plan) (decision : DecisionDict) :
    AgentState :=
  let decision_type := decision.decision.getD "continue"
  if decision_type = "complete" then
    { state with next_agent := some "response", plan := some plan }
  else if decision_type = "modify" then
    let modifications := decision.modifications.getD []
    if modifications.isEmpty then
      finishRoute state plan
    else
      let new_steps := survivingSteps modifications
      if new_steps.isEmpty then
        { state with next_agent := some "response", plan := some plan }
      else
        finishRoute state
          { plan with
            steps := insertSteps plan.steps (computeInsertIdx plan.steps) new_steps }
  else
    finishRoute state plan

/-- Embeds the code-fence stripping of
`OrchestratorAgent._tool_parse_decision`. -/
def stripFences (response : String) : String :=
  let r0 := pyStrip response
  let r1 := if pyStarts r0 "```json" then pyDrop r0 7 else r0
  let r2 := if pyStarts r1 "```" then pyDrop r1 3 else r1
  let r3 := if pyEnds r2 "```" then pyDropRight r2 3 else r2
  pyStrip r3

/-- The literal default dict returned by `_tool_parse_decision` when
`json.loads` raises a `JSONDecodeError`. -/
def parseFailureDecision : DecisionDict :=
  { evaluation := some "Failed to parse LLM response"
    decision := some "continue"
    reasoning := some "Defaulting to continue due to parse error"
    modifications := some [] }

/-- Embeds `OrchestratorAgent._tool_parse_decision`.  `loadDecision`
abstracts `json.loads` on the fence-stripped text (plus the field reads the
caller performs on the resulting dict), returning `none` exactly when the
stdlib parser would raise a `JSONDecodeError`. -/
def parseDecision (loadDecision : String → Option DecisionDict) (response : String) :
    DecisionDict :=
  match loadDecision (stripFences response) with
  | some d => d
  | none => parseFailureDecision

/-! ### Graph wiring and runner (`graph/edges.py`, `graph/workflow.py`) -/

/-- Embeds `route_from_orchestrator` from `graph/edges.py`. -/
def routeFromOrchestrator (state : AgentState) : String :=
  if state.next_agent == some "threads" then "threads"
  else if state.next_agent == some "web_search" then "web_search"
  else "response"

/-- The five graph nodes added by `build_workflow`. -/
inductive Node where
  | planning : Node
  | orchestrator : Node
  | threads : Node
  | web_search : Node
  | response : Node
deriving DecidableEq, Repr

/-- The control-flow-limit condition (`GraphRecursionError`) raised when the
step ceiling is exceeded. -/
inductive GraphErr where
  | recursionLimit : GraphErr
deriving DecidableEq, Repr

/-- The edge structure wired by `build_workflow`: `planning → orchestrator`
unconditionally, a conditional edge out of `orchestrator` through
`route_from_orchestrator`, back-edges `threads → orchestrator` and
`web_search → orchestrator`, and `response → END` (`none`). -/
def nextNode (node : Node) (state : AgentState) : Option Node :=
  match node with
  | Node.planning => some Node.orchestrator
  | Node.orchestrator =>
      if routeFromOrchestrator state = "threads" then some Node.threads
      else if routeFromOrchestrator state = "web_search" then some Node.web_search
      else some Node.response
  | Node.threads => some Node.orchestrator
  | Node.web_search => some Node.orchestrator
  | Node.response => none

/-- Modelled from the spec: the graph-execution engine used by
`WorkflowRunner.run` (an external library, configured there with
`recursion_limit = max_iterations`) is not part of the repository sources;
per the spec it executes one node at a time from the entry point, follows
the wired edges on the updated state, and "A hard step ceiling aborts the
run (raising a control-flow-limit condition) if exceeded".  `fuel` is the
configured ceiling on node executions; the returned number counts the node
executions performed. -/
def runGraphAux {σ : Type} (apply : Node → σ → σ) (proj : σ → AgentState) :
    Nat → Node → σ → Except GraphErr (σ × Nat)
  | 0, _, _ => Except.error GraphErr.recursionLimit
  | fuel + 1, node, st =>
      let st' := apply node st
      match nextNode node (proj st') with
      | none => Except.ok (st', 1)
      | some node' =>
          (runGraphAux apply proj fuel node' st').map (fun pr => (pr.1, pr.2 + 1))

/-- A run of the workflow abstracted over the orchestrator's decisions:
`decisions k` is the `next_agent` value left in state by the `k`-th
orchestrator invocation (the net routing effect of its LLM decision).  The
worker and planning nodes never write `next_agent` in the sources, so they
are modelled as leaving the routing-relevant state unchanged; the extra
`Nat` component counts orchestrator invocations. -/
def applyDec (decisions : Nat → Option String) :
    Node → AgentState × Nat → AgentState × Nat
  | Node.orchestrator, (s, k) => ({ s with next_agent := decisions k }, k + 1)
  | _, (s, k) => (s, k)

/-- A full run of the compiled workflow from `create_initial_state`, with
the step ceiling `limit` (`WorkflowRunner.run` passes `max_iterations`). -/
def runWorkflow (decisions : Nat → Option String) (limit : Nat)
    (messages : List Message) : Except GraphErr ((AgentState × Nat) × Nat) :=
  runGraphAux (applyDec decisions) Prod.fst limit Node.planning
    (createInitialState messages, 0)

/-- The `max_iterations` default of `WorkflowRunner.__init__`. -/
def defaultMaxIterations : Nat := 10

/-- A `next_agent` value that routes the conditional edge to a worker node
(`threads` or `web_search`); everything else routes to `response` — in
particular a `complete` decision leaves `next_agent = "response"`. -/
def isWorkerRoute (a : Option String) : Bool :=
  a == some "threads" || a == some "web_search"

/-! ### Web-search agent (`agents/web_search.py`) -/

/-- Embeds the context assembly of `WebSearchAgent._tool_generate_query`. -/
def buildQueryContext (user_request goal current_action : String) : String :=
  String.intercalate "\n"
    (["User's request: " ++ user_request] ++
      (if goal = "" then [] else ["Overall goal: " ++ goal]) ++
      (if current_action = "" then [] else
        ["Current task direction: " ++ current_action]))

/-- Embeds `WebSearchAgent._tool_generate_query`: one LLM call on the
assembled context, then `.strip().strip(quote).strip(apostrophe)` on the
returned content. -/
def toolGenerateQuery (llm : String → String) (user_request goal current_action : String) :
    String :=
  pyStripChars [Char.ofNat 39]
    (pyStripChars [Char.ofNat 34]
      (pyStrip (llm (buildQueryContext user_request goal current_action))))

/-- Embeds `WebSearchAgent._tool_synthesize`: the fixed no-results sentence
when the hit list is empty, otherwise one LLM call on the assembled
results context. -/
def toolSynthesize (llm : String → String) (results : List SearchHit)
    (user_request goal : String) : String :=
  if results.isEmpty then
    "No relevant search results found for this query."
  else
    let results_text := String.intercalate "\n\n"
      (results.map (fun r =>
        "**" ++ r.title ++ "** (" ++ r.source ++ ")\n" ++ r.snippet ++
          "\nURL: " ++ r.url))
    let context := String.intercalate "\n"
      (["User's request: " ++ user_request] ++
        (if goal = "" then [] else ["Goal: " ++ goal]) ++
        ["\nSearch results:\n" ++ results_text] ++
        ["\nPlease synthesize these results to address the user's needs."])
    llm context

/-- Embeds the user-request extraction loop at the top of
`WebSearchAgent.invoke`: the content of the first `"user"`-role message,
defaulting to the empty string. -/
def wsUserRequest (state : AgentState) : String :=
  ((state.messages.find? (fun m => m.role == "user")).map
    (fun m => m.content)).getD ""

/-- Embeds `WebSearchAgent.invoke`.  `llmQuery` and `llmSynth` abstract the
two (successful) LLM completions; `search` abstracts the external search
collaborator of `_tool_search` already mapped to `{title, url, snippet,
source}` records (a field-for-field copy in the source) with the fixed
limit 5 applied.  Nothing in the embedded body can raise, so the source's
`except`-to-`AgentError` wrapper has no failing case here. -/
def webSearchInvoke (llmQuery llmSynth : String → String)
    (search : String → List SearchHit) (state : AgentState) : AgentState :=
  let plan_data := state.plan
  let user_request := wsUserRequest state
  let goal := match plan_data with | some p => p.goal | none => ""
  let query := toolGenerateQuery llmQuery user_request goal state.current_action
  let results_data := search query
  let synthesis := toolSynthesize llmSynth results_data user_request goal
  let st1 := { state with web_search_results := results_data }
  let st2 :=
    match plan_data with
    | some p => { st1 with plan := some (p.markCurrentStepCompleted (some synthesis)) }
    | none => st1
  { st2 with
    messages := state.messages ++ [{ role := "assistant", content := synthesis }] }

/-! ### Helper lemmas -/

/-- All-rejected modification lists survive as no steps. -/
lemma survivingSteps_eq_nil_of_all_comm (M : List ModDict)
    (hcomm : ∀ mod ∈ M, isCommunicationAction (mod.action.getD "") = true) :
    survivingSteps M = [] := by
  unfold survivingSteps
  rw [List.filterMap_eq_nil_iff]
  intro mod hmod
  simp [hcomm mod hmod]

/-- `finishRoute` stores the given plan back unchanged. -/
lemma finishRoute_plan (s : AgentState) (p : Plan) :
    (finishRoute s p).plan = some p := by
  unfold finishRoute
  cases p.getNextIncompleteStep <;> simp

/-- The sequential-insertion loop starting at a position within the list is
one splice. -/
lemma insertSteps_splice {α : Type} (ss : List α) :
    ∀ (l : List α) (idx : Nat), idx ≤ l.length →
      insertSteps l idx ss = l.take idx ++ ss ++ l.drop idx := by
  induction ss with
  | nil => intro l idx _; simp [insertSteps]
  | cons s rest ih =>
    intro l idx h
    rw [insertSteps, ih (pyInsert l idx s) (idx + 1)
      (by simp [pyInsert]; omega)]
    unfold pyInsert
    have hlen : (l.take idx).length = idx := by
      simp [List.length_take]; omega
    rw [List.take_append_eq_append_take, List.drop_append_eq_append_drop, hlen]
    have h1 : (l.take idx).take (idx + 1) = l.take idx := by
      apply List.take_of_length_le; omega
    have h2 : (l.take idx).drop (idx + 1) = [] := by
      apply List.drop_eq_nil_of_le; omega
    simp [h1, h2]

/-- Characterisation of the `insert_idx` loop: every completed step lies
strictly before the result, and the result is either the initial
accumulator or one past a completed step's index. -/
lemma computeInsertIdxAux_spec (l : List PlanStep) :
    ∀ (i acc : Nat),
      (∀ j (hj : j < l.length), (l.get ⟨j, hj⟩).completed = true →
        i + j < computeInsertIdxAux l i acc) ∧
      (computeInsertIdxAux l i acc = acc ∨
        ∃ j, ∃ hj : j < l.length, (l.get ⟨j, hj⟩).completed = true ∧
          computeInsertIdxAux l i acc = i + j + 1) := by
  induction l with
  | nil =>
    intro i acc
    exact ⟨fun j hj => absurd hj (by simp), Or.inl rfl⟩
  | cons s t ih =>
    intro i acc
    rw [computeInsertIdxAux]
    constructor
    · intro j hj hc
      match j with
      | 0 =>
        have hs : s.completed = true := by simpa using hc
        rw [if_pos hs]
        rcases (ih (i + 1) (i + 1)).2 with h | ⟨j', hj', hc', heq⟩
        · rw [h]; omega
        · rw [heq]; omega
      | Nat.succ j' =>
        have hj2 : j' < t.length := by simpa using hj
        have hc2 : (t.get ⟨j', hj2⟩).completed = true := by simpa using hc
        have := (ih (i + 1) (if s.completed then i + 1 else acc)).1 j' hj2 hc2
        omega
    · rcases (ih (i + 1) (if s.completed then i + 1 else acc)).2 with
        h | ⟨j', hj', hc', heq⟩
      · by_cases hs : s.completed = true
        · right
          refine ⟨0, by simp, by simpa using hs, ?_⟩
          rw [h, if_pos hs]
        · left
          rw [h, if_neg hs]
      · right
        refine ⟨j' + 1, by simpa using hj', by simpa using hc', ?_⟩
        rw [heq]; omega

/-- Characterisation of `computeInsertIdx`: it is within bounds, lies
strictly after every completed step, and is either the front or one past a
completed step. -/
lemma computeInsertIdx_spec (steps : List PlanStep) :
    computeInsertIdx steps ≤ steps.length ∧
    (∀ j (hj : j < steps.length), (steps.get ⟨j, hj⟩).completed = true →
      j < computeInsertIdx steps) ∧
    (computeInsertIdx steps = 0 ∨
      ∃ hj : computeInsertIdx steps - 1 < steps.length,
        (steps.get ⟨computeInsertIdx steps - 1, hj⟩).completed = true) := by
  have h := computeInsertIdxAux_spec steps 0 0
  refine ⟨?_, ?_, ?_⟩
  · rcases h.2 with h0 | ⟨j, hj, _, heq⟩
    · unfold computeInsertIdx; omega
    · unfold computeInsertIdx; omega
  · intro j hj hc
    have := h.1 j hj hc
    unfold computeInsertIdx; omega
  · rcases h.2 with h0 | ⟨j, hj, hc, heq⟩
    · left; unfold computeInsertIdx; omega
    · have hidx : computeInsertIdx steps = j + 1 := by
        unfold computeInsertIdx; omega
      rw [hidx]
      right
      simpa using ⟨hj, hc⟩

/-- The keyword fallback plan always carries at least one step. -/
lemma createFallbackPlan_steps_ne_nil (u : String) :
    (createFallbackPlan u).steps ≠ [] := by
  unfold createFallbackPlan
  dsimp only
  by_cases h1 : (searchKeywords.any fun kw => strContains (pyLower u) kw) = true <;>
    by_cases h2 : (postKeywords.any fun kw => strContains (pyLower u) kw) = true <;>
      simp [h1, h2]

/-- A run that returns normally performed at most `fuel` node executions. -/
lemma runGraphAux_count_le {σ : Type} (apply : Node → σ → σ) (proj : σ → AgentState) :
    ∀ (fuel : Nat) (n : Node) (st : σ) (s : σ) (c : Nat),
      runGraphAux apply proj fuel n st = Except.ok (s, c) → c ≤ fuel := by
  intro fuel
  induction fuel with
  | zero =>
    intro n st s c h
    simp [runGraphAux] at h
  | succ f ih =>
    intro n st s c h
    rw [runGraphAux] at h
    cases hnx : nextNode n (proj (apply n st)) with
    | none =>
        rw [hnx] at h
        simp at h
        omega
    | some n2 =>
        rw [hnx] at h
        simp only at h
        cases hrec : runGraphAux apply proj f n2 (apply n st) with
        | ok pr =>
            rw [hrec] at h
            simp [Except.map] at h
            have := ih n2 (apply n st) pr.1 pr.2 (by rw [hrec])
            omega
        | error e =>
            rw [hrec] at h
            simp [Except.map] at h

/-- One executor step at the orchestrator node whose routing is known. -/
lemma run_orch_step_routed (d : Nat → Option String) (fuel : Nat)
    (s : AgentState) (cnt : Nat) (n2 : Node)
    (hroute : nextNode Node.orchestrator { s with next_agent := d cnt } = some n2) :
    runGraphAux (applyDec d) Prod.fst (fuel + 1) Node.orchestrator (s, cnt) =
      (runGraphAux (applyDec d) Prod.fst fuel n2
        ({ s with next_agent := d cnt }, cnt + 1)).map (fun pr => (pr.1, pr.2 + 1)) := by
  rw [runGraphAux]
  simp only [applyDec]
  rw [hroute]

/-- One executor step at the orchestrator node that routes to response. -/
lemma run_orch_step_response (d : Nat → Option String) (fuel : Nat)
    (s : AgentState) (cnt : Nat)
    (hroute : nextNode Node.orchestrator { s with next_agent := d cnt } =
      some Node.response) :
    runGraphAux (applyDec d) Prod.fst (fuel + 1 + 1) Node.orchestrator (s, cnt) =
      Except.ok ((({ s with next_agent := d cnt }, cnt + 1)), 2) := by
  rw [run_orch_step_routed d (fuel + 1) s cnt Node.response hroute]
  rw [runGraphAux]
  simp [applyDec, nextNode, Except.map]

/-- One executor step at a worker node: the state is untouched and control
returns to the orchestrator. -/
lemma run_worker_step (d : Nat → Option String) (fuel : Nat) (s : AgentState)
    (cnt : Nat) (w : Node) (hw : w = Node.threads ∨ w = Node.web_search) :
    runGraphAux (applyDec d) Prod.fst (fuel + 1) w (s, cnt) =
      (runGraphAux (applyDec d) Prod.fst fuel Node.orchestrator
        (s, cnt)).map (fun pr => (pr.1, pr.2 + 1)) := by
  rcases hw with h | h <;> subst h <;> (rw [runGraphAux]; simp only [applyDec, nextNode])

/-- One executor step at the planning node: control passes to the
orchestrator. -/
lemma run_planning_step (d : Nat → Option String) (fuel : Nat) (s : AgentState)
    (cnt : Nat) :
    runGraphAux (applyDec d) Prod.fst (fuel + 1) Node.planning (s, cnt) =
      (runGraphAux (applyDec d) Prod.fst fuel Node.orchestrator
        (s, cnt)).map (fun pr => (pr.1, pr.2 + 1)) := by
  rw [runGraphAux]
  simp only [applyDec, nextNode]

/-- A non-worker `next_agent` routes the orchestrator's conditional edge to
the response node. -/
lemma nextNode_orch_of_not_worker (s : AgentState)
    (h : isWorkerRoute s.next_agent = false) :
    nextNode Node.orchestrator s = some Node.response := by
  simp [isWorkerRoute] at h
  simp [nextNode, routeFromOrchestrator, h.1, h.2]

/-- A `"threads"` route. -/
lemma nextNode_orch_threads (s : AgentState) (h : s.next_agent = some "threads") :
    nextNode Node.orchestrator s = some Node.threads := by
  simp [nextNode, routeFromOrchestrator, h]

/-- A `"web_search"` route. -/
lemma nextNode_orch_web_search (s : AgentState)
    (h : s.next_agent = some "web_search") :
    nextNode Node.orchestrator s = some Node.web_search := by
  simp [nextNode, routeFromOrchestrator, h]

/-- A worker `next_agent` routes the orchestrator's conditional edge to one
of the two worker nodes. -/
lemma nextNode_orch_worker (s : AgentState)
    (h : isWorkerRoute s.next_agent = true) :
    ∃ w, (w = Node.threads ∨ w = Node.web_search) ∧
      nextNode Node.orchestrator s = some w := by
  simp [isWorkerRoute] at h
  rcases h with h | h
  · exact ⟨Node.threads, Or.inl rfl, nextNode_orch_threads s h⟩
  · exact ⟨Node.web_search, Or.inr rfl, nextNode_orch_web_search s h⟩

/-- Running from the orchestrator with `k` worker rounds before the first
response route: with fuel at least `2k + 2` the run ends normally in exactly
`2k + 2` node executions, and with less fuel it aborts with the
control-flow-limit error. -/
lemma runFromOrchestrator_spec (d : Nat → Option String) :
    ∀ (k cnt : Nat) (s : AgentState) (fuel : Nat),
      (∀ j, j < k → isWorkerRoute (d (cnt + j)) = true) →
      isWorkerRoute (d (cnt + k)) = false →
      (2 * k + 2 ≤ fuel →
        ∃ st, runGraphAux (applyDec d) Prod.fst fuel Node.orchestrator (s, cnt) =
          Except.ok (st, 2 * k + 2)) ∧
      (fuel < 2 * k + 2 →
        runGraphAux (applyDec d) Prod.fst fuel Node.orchestrator (s, cnt) =
          Except.error GraphErr.recursionLimit) := by
  intro k
  induction k with
  | zero =>
    intro cnt s fuel hb hk
    rw [Nat.add_zero] at hk
    have hroute : nextNode Node.orchestrator { s with next_agent := d cnt } =
        some Node.response := nextNode_orch_of_not_worker _ (by simpa using hk)
    constructor
    · intro hle
      rcases fuel with _ | fuel1
      · omega
      rcases fuel1 with _ | f
      · omega
      refine ⟨({ s with next_agent := d cnt }, cnt + 1), ?_⟩
      rw [run_orch_step_response d f s cnt hroute]
    · intro hlt
      rcases fuel with _ | fuel1
      · simp [runGraphAux]
      rcases fuel1 with _ | f
      · rw [run_orch_step_routed d 0 s cnt Node.response hroute]
        simp [runGraphAux, Except.map]
      · omega
  | succ k ih =>
    intro cnt s fuel hb hk
    have h0 : isWorkerRoute (d cnt) = true := by
      have := hb 0 (by omega)
      simpa using this
    have hb2 : ∀ j, j < k → isWorkerRoute (d (cnt + 1 + j)) = true := by
      intro j hj
      have := hb (j + 1) (by omega)
      rw [show cnt + 1 + j = cnt + (j + 1) by omega]
      exact this
    have hk2 : isWorkerRoute (d (cnt + 1 + k)) = false := by
      rw [show cnt + 1 + k = cnt + (k + 1) by omega]
      exact hk
    obtain ⟨w, hw, hnw⟩ := nextNode_orch_worker { s with next_agent := d cnt }
      (by simpa using h0)
    constructor
    · intro hle
      rcases fuel with _ | fuel1
      · omega
      rcases fuel1 with _ | f
      · omega
      obtain ⟨st, hst⟩ :=
        (ih (cnt + 1) { s with next_agent := d cnt } f hb2 hk2).1 (by omega)
      refine ⟨st, ?_⟩
      have hc : 2 * (k + 1) + 2 = 2 * k + 2 + 1 + 1 := by omega
      rw [run_orch_step_routed d (f + 1) s cnt w hnw,
        run_worker_step d f _ _ w hw, hst, hc]
      simp [Except.map]
    · intro hlt
      rcases fuel with _ | fuel1
      · simp [runGraphAux]
      rcases fuel1 with _ | f
      · rw [run_orch_step_routed d 0 s cnt w hnw]
        simp [runGraphAux, Except.map]
      · have herr :=
          (ih (cnt + 1) { s with next_agent := d cnt } f hb2 hk2).2 (by omega)
        rw [run_orch_step_routed d (f + 1) s cnt w hnw,
          run_worker_step d f _ _ w hw, herr]
        simp [Except.map]

/-- With decisions that always route to a worker, the run never reaches the
response node and aborts with the control-flow-limit error for every fuel. -/
lemma runFromOrchestrator_never (d : Nat → Option String)
    (hall : ∀ j, isWorkerRoute (d j) = true) :
    ∀ (fuel cnt : Nat) (s : AgentState),
      runGraphAux (applyDec d) Prod.fst fuel Node.orchestrator (s, cnt) =
        Except.error GraphErr.recursionLimit := by
  intro fuel
  induction fuel using Nat.strong_induction_on with
  | _ fuel ih =>
    intro cnt s
    obtain ⟨w, hw, hnw⟩ := nextNode_orch_worker { s with next_agent := d cnt }
      (by simpa using hall cnt)
    rcases fuel with _ | fuel1
    · simp [runGraphAux]
    rcases fuel1 with _ | f
    · rw [run_orch_step_routed d 0 s cnt w hnw]
      simp [runGraphAux, Except.map]
    · rw [run_orch_step_routed d (f + 1) s cnt w hnw,
        run_worker_step d f _ _ w hw,
        ih f (by omega) (cnt + 1) { s with next_agent := d cnt }]
      simp [Except.map]

end ThreadsMA

namespace ThreadsMA

/-! ### Claim theorems -/

/-- C7: `mark_current_step_completed(result)` with the cursor in range sets
the completion flag and the result on exactly the step at
`current_step_index`, leaves that step's agent and action and every other
step untouched, keeps the step count, and advances the cursor by exactly
one; with the cursor out of range it is a total no-op (the plan is returned
completely unchanged, so repeated calls past the end are safe), and the
embedded operation is a total function, so no error is raised in either
case. -/
theorem c7_mark_current_step_completed (p : Plan) (r : Option String) :
    (p.current_step_index < p.steps.length →
      (p.markCurrentStepCompleted r).current_step_index = p.current_step_index + 1 ∧
      (p.markCurrentStepCompleted r).goal = p.goal ∧
      (p.markCurrentStepCompleted r).steps.length = p.steps.length ∧
      ((p.markCurrentStepCompleted r).steps[p.current_step_index]?.map
        PlanStep.completed = some true) ∧
      ((p.markCurrentStepCompleted r).steps[p.current_step_index]?.map
        PlanStep.result = some r) ∧
      ((p.markCurrentStepCompleted r).steps[p.current_step_index]?.map
        PlanStep.agent = p.steps[p.current_step_index]?.map PlanStep.agent) ∧
      ((p.markCurrentStepCompleted r).steps[p.current_step_index]?.map
        PlanStep.action = p.steps[p.current_step_index]?.map PlanStep.action) ∧
      (∀ j, j ≠ p.current_step_index →
        (p.markCurrentStepCompleted r).steps[j]? = p.steps[j]?)) ∧
    (p.steps.length ≤ p.current_step_index → p.markCurrentStepCompleted r = p) := by
  constructor
  · intro h
    refine ⟨?_, ?_, ?_, ?_, ?_, ?_, ?_, ?_⟩
    · simp [Plan.markCurrentStepCompleted, h]
    · simp [Plan.markCurrentStepCompleted, h]
    · simp [Plan.markCurrentStepCompleted, h]
    · simp [Plan.markCurrentStepCompleted, h, List.getElem?_set, List.getElem?_eq_getElem]
    · simp [Plan.markCurrentStepCompleted, h, List.getElem?_set, List.getElem?_eq_getElem]
    · simp [Plan.markCurrentStepCompleted, h, List.getElem?_set, List.getElem?_eq_getElem]
    · simp [Plan.markCurrentStepCompleted, h, List.getElem?_set, List.getElem?_eq_getElem]
    · intro j hj
      simp [Plan.markCurrentStepCompleted, h,
        List.getElem?_set_ne (fun hh => hj hh.symm)]
  · intro h
    simp [Plan.markCurrentStepCompleted, Nat.not_lt.mpr h]

/-- Witness for C7 at a concrete plan: a one-step plan with the cursor at 0
gets its cursor advanced, and an empty plan with the cursor at 3 is
unchanged. -/
theorem c7_witness :
    ((⟨"g", [⟨"web_search", "a", false, none⟩], 0⟩ : Plan).markCurrentStepCompleted
        (some "done")).current_step_index = 0 + 1 ∧
    (⟨"g", [], 3⟩ : Plan).markCurrentStepCompleted none = ⟨"g", [], 3⟩ :=
  ⟨((c7_mark_current_step_completed ⟨"g", [⟨"web_search", "a", false, none⟩], 0⟩
      (some "done")).1 (by decide)).1,
    (c7_mark_current_step_completed ⟨"g", [], 3⟩ none).2 (by decide)⟩

/-- C8: synthesis on an empty hit list returns exactly the fixed no-results
sentence, for every LLM collaborator — the result does not depend on the
LLM at all (the embedded counterpart of "performs no LLM call"). -/
theorem c8_synthesize_empty_results (llm llm2 : String → String) (u g : String) :
    toolSynthesize llm [] u g = "No relevant search results found for this query." ∧
    toolSynthesize llm [] u g = toolSynthesize llm2 [] u g := by
  constructor <;> rfl

/-- C2: a `modify` decision whose non-empty modification list consists
entirely of user-communication actions is processed exactly like a
`complete` decision: the resulting states are equal, `next_agent` is
`response`, and the plan (hence its steps) is stored back unchanged. -/
theorem c2_all_communication_modify_equals_complete (s : AgentState) (p : Plan)
    (e r : Option String) (M : List ModDict) (hne : M ≠ [])
    (hcomm : ∀ mod ∈ M, isCommunicationAction (mod.action.getD "") = true) :
    processDecision s p ⟨e, some "modify", r, some M⟩ =
      processDecision s p ⟨e, some "complete", r, some M⟩ ∧
    (processDecision s p ⟨e, some "modify", r, some M⟩).next_agent = some "response" ∧
    (processDecision s p ⟨e, some "modify", r, some M⟩).plan = some p := by
  have hsurv : survivingSteps M = [] := survivingSteps_eq_nil_of_all_comm M hcomm
  have hM : M.isEmpty = false := by
    cases M with
    | nil => exact absurd rfl hne
    | cons a t => rfl
  refine ⟨?_, ?_, ?_⟩ <;>
    simp [processDecision, hM, hsurv]

/-- Witness for C2 at a concrete state, plan and modification list. -/
theorem c2_witness :
    processDecision (createInitialState []) ⟨"g", [⟨"web_search", "a", true, some "r"⟩], 1⟩
        ⟨none, some "modify", none,
          some [⟨some "web_search", some "Inform the user about the results"⟩]⟩ =
      processDecision (createInitialState []) ⟨"g", [⟨"web_search", "a", true, some "r"⟩], 1⟩
        ⟨none, some "complete", none,
          some [⟨some "web_search", some "Inform the user about the results"⟩]⟩ :=
  (c2_all_communication_modify_equals_complete (createInitialState [])
    ⟨"g", [⟨"web_search", "a", true, some "r"⟩], 1⟩ none none
    [⟨some "web_search", some "Inform the user about the results"⟩]
    (by decide) (by decide)).1

/-- C4: when `json.loads` fails on the fence-stripped response, the decision
parser returns the conservative default — `decision = "continue"` with an
empty modification list (it is a total function, so nothing is raised) —
and processing that default decision stores every plan back unchanged. -/
theorem c4_parse_failure_defaults_to_continue
    (loadDecision : String → Option DecisionDict) (response : String)
    (hfail : loadDecision (stripFences response) = none) :
    (parseDecision loadDecision response).decision = some "continue" ∧
    (parseDecision loadDecision response).modifications = some [] ∧
    ∀ (s : AgentState) (p : Plan),
      (processDecision s p (parseDecision loadDecision response)).plan = some p := by
  have hdef : parseDecision loadDecision response = parseFailureDecision := by
    simp [parseDecision, hfail]
  refine ⟨by simp [hdef, parseFailureDecision], by simp [hdef, parseFailureDecision], ?_⟩
  intro s p
  rw [hdef]
  simp [processDecision, parseFailureDecision, finishRoute_plan]

/-- Witness for C4 with a concrete failing decoder and response. -/
theorem c4_witness :
    (parseDecision (fun _ => none) "not json at all").decision = some "continue" ∧
    (processDecision (createInitialState [])
      ⟨"g", [⟨"threads", "a", false, none⟩], 0⟩
      (parseDecision (fun _ => none) "not json at all")).plan =
        some ⟨"g", [⟨"threads", "a", false, none⟩], 0⟩ :=
  ⟨(c4_parse_failure_defaults_to_continue (fun _ => none) "not json at all" rfl).1,
    (c4_parse_failure_defaults_to_continue (fun _ => none) "not json at all" rfl).2.2
      (createInitialState []) ⟨"g", [⟨"threads", "a", false, none⟩], 0⟩⟩

/-- C3: a `modify` decision with at least one surviving modification splices
the surviving steps, in order, into the step list at `computeInsertIdx`,
which lies within bounds, strictly after every completed step, and is the
front or one past a completed step ("immediately after the last completed
step").  The spliced form `take ++ new ++ drop` shows every existing step —
pending or completed — keeps its contents, flags, results and relative
order, and the plan's goal and cursor are untouched. -/
theorem c3_modify_splices_after_last_completed (s : AgentState) (p : Plan)
    (e r : Option String) (M : List ModDict) (hsurv : survivingSteps M ≠ []) :
    (processDecision s p ⟨e, some "modify", r, some M⟩).plan =
      some { goal := p.goal
             steps := p.steps.take (computeInsertIdx p.steps) ++ survivingSteps M ++
               p.steps.drop (computeInsertIdx p.steps)
             current_step_index := p.current_step_index } ∧
    computeInsertIdx p.steps ≤ p.steps.length ∧
    (∀ j (hj : j < p.steps.length), (p.steps.get ⟨j, hj⟩).completed = true →
      j < computeInsertIdx p.steps) ∧
    (computeInsertIdx p.steps = 0 ∨
      ∃ hj : computeInsertIdx p.steps - 1 < p.steps.length,
        (p.steps.get ⟨computeInsertIdx p.steps - 1, hj⟩).completed = true) := by
  obtain ⟨hle, hafter, hpos⟩ := computeInsertIdx_spec p.steps
  have hM : M.isEmpty = false := by
    cases M with
    | nil => simp [survivingSteps] at hsurv
    | cons a t => rfl
  have hns : (survivingSteps M).isEmpty = false := by
    cases hh : survivingSteps M with
    | nil => exact absurd hh hsurv
    | cons a t => rfl
  refine ⟨?_, hle, hafter, hpos⟩
  have hins := insertSteps_splice (survivingSteps M) p.steps (computeInsertIdx p.steps) hle
  simp [processDecision, hM, hns, finishRoute_plan, hins]

/-- Witness for C3: the spec's own scenario — after a completed `web_search`
step, a retry modification is spliced right behind it. -/
theorem c3_witness :
    (processDecision (createInitialState [])
        ⟨"g", [⟨"web_search", "Search X", true, some "r"⟩, ⟨"threads", "post it", false, none⟩], 1⟩
        ⟨none, some "modify", none,
          some [⟨some "web_search", some "Search for X with different keywords"⟩]⟩).plan =
      some { goal := "g"
             steps :=
               ([⟨"web_search", "Search X", true, some "r"⟩,
                 ⟨"threads", "post it", false, none⟩] : List PlanStep).take
                   (computeInsertIdx
                     [⟨"web_search", "Search X", true, some "r"⟩,
                      ⟨"threads", "post it", false, none⟩]) ++
                 survivingSteps [⟨some "web_search", some "Search for X with different keywords"⟩] ++
                 ([⟨"web_search", "Search X", true, some "r"⟩,
                   ⟨"threads", "post it", false, none⟩] : List PlanStep).drop
                   (computeInsertIdx
                     [⟨"web_search", "Search X", true, some "r"⟩,
                      ⟨"threads", "post it", false, none⟩])
             current_step_index := 1 } :=
  (c3_modify_splices_after_last_completed (createInitialState [])
    ⟨"g", [⟨"web_search", "Search X", true, some "r"⟩, ⟨"threads", "post it", false, none⟩], 1⟩
    none none [⟨some "web_search", some "Search for X with different keywords"⟩]
    (by decide)).1

/-- Counterexample to C5 as stated: `"{}"` decodes as an empty JSON object —
`goal` and `steps` are both missing — yet the parser does *not* return the
keyword fallback plan: it defaults the fields, producing an empty plan,
while the fallback for the same user message has one step. -/
theorem c5_counterexample :
    toolParsePlan (fun str => if str = "{}" then some (Json.obj []) else none)
        "{}" "hello" = Except.ok ⟨"hello", [], 0⟩ ∧
    createFallbackPlan "hello" ≠ ⟨"hello", [], 0⟩ := by
  exact ⟨rfl, by decide⟩

/-- C5 amended: the keyword fallback plan is returned exactly when strict
JSON decoding of the brace-delimited substring fails, or when no
brace-delimited substring exists at all; in that case the returned plan is
never empty.  (Decoded JSON with missing `goal`/`steps` fields does not fall
back: the fields are defaulted to the user message and the empty list.) -/
theorem c5_fallback_on_decode_failure (jsonLoads : String → Option Json)
    (response user_message : String) :
    (jsonSpanStr response = none →
      toolParsePlan jsonLoads response user_message =
        Except.ok (createFallbackPlan user_message)) ∧
    (∀ js, jsonSpanStr response = some js → jsonLoads js = none →
      toolParsePlan jsonLoads response user_message =
        Except.ok (createFallbackPlan user_message)) ∧
    (createFallbackPlan user_message).steps ≠ [] := by
  refine ⟨?_, ?_, createFallbackPlan_steps_ne_nil user_message⟩
  · intro h
    simp [toolParsePlan, h]
  · intro js hspan hload
    simp [toolParsePlan, hspan, hload]

/-- Witness for C5 amended: a braceless response and a brace-delimited one
whose decode fails both yield the fallback. -/
theorem c5_witness :
    toolParsePlan (fun _ => none) "no braces here" "post it" =
      Except.ok (createFallbackPlan "post it") ∧
    toolParsePlan (fun _ => none) "x { not json } y" "post it" =
      Except.ok (createFallbackPlan "post it") :=
  ⟨(c5_fallback_on_decode_failure (fun _ => none) "no braces here" "post it").1
      (by decide),
    (c5_fallback_on_decode_failure (fun _ => none) "x { not json } y" "post it").2.1
      "{ not json }" (by decide) rfl⟩

/-- Counterexample to C10 as stated: on a plan with an empty step list, a
`modify` decision with one surviving (non-communication, valid-agent)
modification makes decision processing insert the step and route to
`web_search`, not to `response` — so the routing is not independent of the
LLM's decision. -/
theorem c10_counterexample :
    (processDecision (createInitialState []) ⟨"g", [], 0⟩
        ⟨none, some "modify", none,
          some [⟨some "web_search", some "look up X"⟩]⟩).next_agent =
      some "web_search" ∧
    (some "web_search" : Option String) ≠ some "response" ∧
    Plan.isComplete ⟨"g", [], 0⟩ = true := by
  decide

/-- C10 amended: an empty-steps plan counts as complete (`is_complete` is
true, there is no next incomplete step), and the plan-builder produces such
a plan from decoded JSON whose `steps` field is absent or an empty list;
decision processing on such a plan routes to `response` for every decision
*except* a `modify` whose modification list survives filtering, which
inserts the new steps and routes to the first inserted step's agent. -/
theorem c10_empty_plan_routes_response (s : AgentState) (g : String) (i : Nat)
    (d : DecisionDict)
    (hmod : d.decision.getD "continue" = "modify" →
      survivingSteps (d.modifications.getD []) = []) :
    Plan.isComplete ⟨g, [], i⟩ = true ∧
    Plan.getNextIncompleteStep ⟨g, [], i⟩ = none ∧
    (∀ u, buildPlanFromData (Json.obj []) u = Except.ok ⟨u, [], 0⟩) ∧
    (∀ u, buildPlanFromData (Json.obj [("steps", Json.arr [])]) u =
      Except.ok ⟨u, [], 0⟩) ∧
    (processDecision s ⟨g, [], i⟩ d).next_agent = some "response" := by
  refine ⟨rfl, rfl, fun u => rfl, fun u => rfl, ?_⟩
  · by_cases hc : d.decision.getD "continue" = "complete"
    · simp [processDecision, hc]
    · by_cases hm : d.decision.getD "continue" = "modify"
      · have hs := hmod hm
        by_cases hme : (d.modifications.getD []).isEmpty
        · simp [processDecision, hc, hm, hme, finishRoute, Plan.getNextIncompleteStep]
        · simp [processDecision, hc, hm, hme, hs, finishRoute,
            Plan.getNextIncompleteStep]
      · simp [processDecision, hc, hm, finishRoute, Plan.getNextIncompleteStep]

/-- Witness for C10 amended at a concrete `continue` decision on an empty
plan. -/
theorem c10_witness :
    (processDecision (createInitialState []) ⟨"g", [], 0⟩
        ⟨none, some "continue", none, none⟩).next_agent = some "response" :=
  (c10_empty_plan_routes_response (createInitialState []) "g" 0
    ⟨none, some "continue", none, none⟩ (by decide)).2.2.2.2

/-- Counterexample to C6 as stated: with one prior hit in the state and one
newly fetched hit, the returned state's web results list is exactly the new
hit — the prior hit is dropped, not preserved in front of it. -/
theorem c6_counterexample :
    (webSearchInvoke (fun _ => "q") (fun _ => "synth")
        (fun _ => [⟨"new", "u2", "s2", "d2"⟩])
        { messages := [⟨"user", "find it"⟩]
          plan := some ⟨"g", [⟨"web_search", "a", false, none⟩], 0⟩
          web_search_results := [⟨"old", "u1", "s1", "d1"⟩]
          threads_results := []
          current_action := "a"
          next_agent := some "web_search"
          error := none
          output := none }).web_search_results = [⟨"new", "u2", "s2", "d2"⟩] ∧
    ([⟨"new", "u2", "s2", "d2"⟩] : List SearchHit) ≠
      [⟨"old", "u1", "s1", "d1"⟩, ⟨"new", "u2", "s2", "d2"⟩] := by
  decide

/-- C6 amended: a successful web-research invocation *replaces* the state's
web results list with the newly fetched hits (prior hits are dropped), marks
the current plan step completed with the synthesis text as its result, and
appends exactly one new assistant message carrying the synthesis; messages
before it and the remaining state fields are untouched. -/
theorem c6_invoke_state_update (llmQ llmS : String → String)
    (search : String → List SearchHit) (state : AgentState) (p : Plan)
    (hplan : state.plan = some p) :
    (webSearchInvoke llmQ llmS search state).web_search_results =
      search (toolGenerateQuery llmQ (wsUserRequest state) p.goal
        state.current_action) ∧
    (webSearchInvoke llmQ llmS search state).plan =
      some (p.markCurrentStepCompleted (some (toolSynthesize llmS
        (search (toolGenerateQuery llmQ (wsUserRequest state) p.goal
          state.current_action))
        (wsUserRequest state) p.goal))) ∧
    (webSearchInvoke llmQ llmS search state).messages =
      state.messages ++ [⟨"assistant", toolSynthesize llmS
        (search (toolGenerateQuery llmQ (wsUserRequest state) p.goal
          state.current_action))
        (wsUserRequest state) p.goal⟩] ∧
    (webSearchInvoke llmQ llmS search state).threads_results =
      state.threads_results ∧
    (webSearchInvoke llmQ llmS search state).current_action =
      state.current_action := by
  refine ⟨?_, ?_, ?_, ?_, ?_⟩ <;> simp [webSearchInvoke, hplan]

/-- Witness for C6 amended: a concrete invocation with no fetched hits
completes the plan step with the fixed no-results sentence. -/
theorem c6_witness :
    (webSearchInvoke (fun _ => "q") (fun _ => "s") (fun _ => [])
        { messages := [⟨"user", "hello"⟩]
          plan := some ⟨"goal", [⟨"web_search", "act", false, none⟩], 0⟩
          web_search_results := []
          threads_results := []
          current_action := "act"
          next_agent := some "web_search"
          error := none
          output := none }).plan =
      some ((⟨"goal", [⟨"web_search", "act", false, none⟩], 0⟩ : Plan).markCurrentStepCompleted
        (some (toolSynthesize (fun _ => "s")
          ((fun _ => ([] : List SearchHit))
            (toolGenerateQuery (fun _ => "q")
              (wsUserRequest
                { messages := [⟨"user", "hello"⟩]
                  plan := some ⟨"goal", [⟨"web_search", "act", false, none⟩], 0⟩
                  web_search_results := []
                  threads_results := []
                  current_action := "act"
                  next_agent := some "web_search"
                  error := none
                  output := none })
              "goal" "act"))
          (wsUserRequest
            { messages := [⟨"user", "hello"⟩]
              plan := some ⟨"goal", [⟨"web_search", "act", false, none⟩], 0⟩
              web_search_results := []
              threads_results := []
              current_action := "act"
              next_agent := some "web_search"
              error := none
              output := none })
          "goal"))) :=
  (c6_invoke_state_update (fun _ => "q") (fun _ => "s") (fun _ => [])
    { messages := [⟨"user", "hello"⟩]
      plan := some ⟨"goal", [⟨"web_search", "act", false, none⟩], 0⟩
      web_search_results := []
      threads_results := []
      current_action := "act"
      next_agent := some "web_search"
      error := none
      output := none }
    ⟨"goal", [⟨"web_search", "act", false, none⟩], 0⟩ rfl).2.1

/-- Counterexample to C9 as stated: a conversation whose (only) user-role
message has empty content contains a user message, yet the plan-builder's
invocation raises `PlanningError` — the source tests the *truthiness* of the
latest user message's content, not mere presence of a user message. -/
theorem c9_counterexample :
    planningInvoke (fun _ => none) (fun _ => "x")
        (createInitialState [⟨"user", ""⟩]) = Except.error PyExc.planningError ∧
    (createInitialState [⟨"user", ""⟩]).messages.any
      (fun m => m.role == "user") = true :=
  ⟨rfl, rfl⟩

/-- C9 amended: the plan-builder's invocation fails exactly when the most
recent user message is absent or empty, or when plan construction from the
decoded LLM response raises an internal (non-`JSONDecodeError`) exception;
every failure surfaces as `PlanningError`. -/
theorem c9_planning_error_characterisation (jsonLoads : String → Option Json)
    (llm : String → String) (state : AgentState) :
    (∀ ex, planningInvoke jsonLoads llm state = Except.error ex →
      ex = PyExc.planningError) ∧
    ((∃ ex, planningInvoke jsonLoads llm state = Except.error ex) ↔
      (pyTruthy (latestUserContent state.messages) = false ∨
        ∃ m, latestUserContent state.messages = some m ∧
          ∃ ex2, toolParsePlan jsonLoads (llm m) m = Except.error ex2)) := by
  cases hl : latestUserContent state.messages with
  | none =>
      constructor
      · intro ex hex
        simp [planningInvoke, hl, pyTruthy] at hex
        exact hex.symm
      · simp [planningInvoke, hl, pyTruthy]
  | some m =>
      by_cases hm : m = ""
      · subst hm
        constructor
        · intro ex hex
          simp [planningInvoke, hl, pyTruthy] at hex
          exact hex.symm
        · simp [planningInvoke, hl, pyTruthy]
      · have ht : pyTruthy (some m) = true := by simp [pyTruthy, hm]
        cases hp : toolParsePlan jsonLoads (llm m) m with
        | ok plan =>
            constructor
            · intro ex hex
              simp [planningInvoke, hl, ht, hp] at hex
            · simp [planningInvoke, hl, ht, hp]
        | error e2 =>
            constructor
            · intro ex hex
              simp [planningInvoke, hl, ht, hp] at hex
              exact hex.symm
            · simp [planningInvoke, hl, ht, hp]

/-- Witness for C9 amended: with no user message at all, the invocation
fails. -/
theorem c9_witness :
    ∃ ex, planningInvoke (fun _ => none) (fun _ => "x") (createInitialState []) =
      Except.error ex :=
  (c9_planning_error_characterisation (fun _ => none) (fun _ => "x")
    (createInitialState [])).2.mpr (Or.inl (by decide))

/-- Counterexample to C1 as stated: a sequence of orchestrator decisions
that does eventually route to `response` (at the fifth orchestrator
evaluation) nevertheless needs eleven node executions — beyond the default
ceiling of ten — so the run aborts with the control-flow-limit error instead
of terminating normally within the ceiling. -/
theorem c1_counterexample :
    ((fun j => if j < 4 then some "web_search" else some "response") 4 =
      some "response") ∧
    runWorkflow (fun j => if j < 4 then some "web_search" else some "response")
        defaultMaxIterations [⟨"user", "hi"⟩] =
      Except.error GraphErr.recursionLimit :=
  ⟨rfl, rfl⟩

/-- C1 amended: every normally terminating run performs at most the
configured number of node executions; a decision sequence whose first
response route comes at the `k`-th orchestrator evaluation terminates
normally in exactly `2k + 3` node executions when `2k + 3` fits within the
ceiling, and aborts with the control-flow-limit error when it does not —
in particular a sequence that never routes to `response` always aborts
rather than looping forever. -/
theorem c1_step_ceiling (d : Nat → Option String) (limit : Nat)
    (msgs : List Message) :
    (∀ st c, runWorkflow d limit msgs = Except.ok (st, c) → c ≤ limit) ∧
    (∀ k, (∀ j, j < k → isWorkerRoute (d j) = true) →
      isWorkerRoute (d k) = false →
      (2 * k + 3 ≤ limit →
        ∃ st, runWorkflow d limit msgs = Except.ok (st, 2 * k + 3)) ∧
      (limit < 2 * k + 3 →
        runWorkflow d limit msgs = Except.error GraphErr.recursionLimit)) ∧
    ((∀ j, isWorkerRoute (d j) = true) →
      runWorkflow d limit msgs = Except.error GraphErr.recursionLimit) := by
  refine ⟨?_, ?_, ?_⟩
  · intro st c h
    exact runGraphAux_count_le _ _ limit Node.planning _ st c h
  · intro k hb hk
    have hb0 : ∀ j, j < k → isWorkerRoute (d (0 + j)) = true := by
      intro j hj
      simpa using hb j hj
    have hk0 : isWorkerRoute (d (0 + k)) = false := by simpa using hk
    constructor
    · intro hle
      rcases limit with _ | L
      · omega
      obtain ⟨st, hst⟩ :=
        (runFromOrchestrator_spec d k 0 (createInitialState msgs) L hb0 hk0).1
          (by omega)
      refine ⟨st, ?_⟩
      unfold runWorkflow
      have hc : 2 * k + 3 = 2 * k + 2 + 1 := by omega
      rw [run_planning_step, hst, hc]
      simp [Except.map]
    · intro hlt
      rcases limit with _ | L
      · simp [runWorkflow, runGraphAux]
      have herr :=
        (runFromOrchestrator_spec d k 0 (createInitialState msgs) L hb0 hk0).2
          (by omega)
      unfold runWorkflow
      rw [run_planning_step, herr]
      simp [Except.map]
  · intro hall
    rcases limit with _ | L
    · simp [runWorkflow, runGraphAux]
    · unfold runWorkflow
      rw [run_planning_step,
        runFromOrchestrator_never d hall L 0 (createInitialState msgs)]
      simp [Except.map]

/-- Witness for C1 amended: one `web_search` round then `complete` finishes
in exactly five node executions under the default ceiling of ten. -/
theorem c1_witness :
    ∃ st, runWorkflow (fun j => if j < 1 then some "web_search" else some "response")
        defaultMaxIterations [⟨"user", "hi"⟩] = Except.ok (st, 2 * 1 + 3) :=
  ((c1_step_ceiling (fun j => if j < 1 then some "web_search" else some "response")
      defaultMaxIterations [⟨"user", "hi"⟩]).2.1 1
    (by decide) (by decide)).1 (by decide)

end ThreadsMA
